import Mathlib

/-!
Verification of the new-tracks pipeline (src/trainlog_new_tracks.py).

The script decodes each trip's encoded path into a planar line, subtracts a
buffered neighbourhood of every historical line from every candidate line,
flattens the resulting geometry into simple line fragments, and re-exports
each fragment with its originating trip's metadata.

The shallow embedding below mirrors the script:
* geometry values produced by the shapely backend are modelled two ways:
  an AST (`Geom`) for the type-dispatch code (`geom_type`, `.geoms`), and,
  for the semantic properties of buffering and subtraction, plain planar
  point sets `Set (ℝ × ℝ)`;
* the difference loop is written over an abstract backend (`GeoOps`,
  and `GeoOpsE` for the fallible backend in which the shapely calls can
  raise, modelled as `Except`);
* the polyline codec (the `polyline` package's `encode`/`decode`) is
  embedded at the byte level, with Python's bitwise accumulation kept as
  `|||`/`<<<` on `ℕ`;
* pandas rows are association lists `List (String × CellVal)`, and the
  `DataFrame`/column-selection step of the export is embedded with its
  KeyError behaviour.
-/

/-- The shapely `geom_type` strings the script compares against
(`'LineString'`, `'MultiLineString'`, `'GeometryCollection'`; every other
geometry kind behaves uniformly in the script). -/
inductive GeomType : Type
  | lineString
  | multiLineString
  | geometryCollection
  | other
deriving DecidableEq

/-- `t in ['LineString', 'MultiLineString']` (lines 159 and 163). -/
def lineLike : GeomType → Bool
  | GeomType.lineString => true
  | GeomType.multiLineString => true
  | _ => false

/-- AST of the shapely geometry values the script inspects.  Coordinates are
rationals (the script's floats, idealised). -/
inductive Geom : Type
  | lineString (coords : List (ℚ × ℚ))
  | multiLineString (lines : List (List (ℚ × ℚ)))
  | geometryCollection (geoms : List Geom)
  | point (c : ℚ × ℚ)
  | polygon (rings : List (List (ℚ × ℚ)))

/-- shapely's `.geom_type` attribute on the AST. -/
def Geom.geomTypeOf : Geom → GeomType
  | Geom.lineString _ => GeomType.lineString
  | Geom.multiLineString _ => GeomType.multiLineString
  | Geom.geometryCollection _ => GeomType.geometryCollection
  | Geom.point _ => GeomType.other
  | Geom.polygon _ => GeomType.other

/-- shapely's `.is_empty`: a geometry with no coordinates. -/
def Geom.isEmptyG : Geom → Bool
  | Geom.lineString cs => cs.isEmpty
  | Geom.multiLineString ls => ls.isEmpty
  | Geom.geometryCollection gs => gs.isEmpty
  | Geom.point _ => false
  | Geom.polygon rs => rs.isEmpty

/-- shapely's `.geoms` on a collection. -/
def Geom.partsOf : Geom → List Geom
  | Geom.geometryCollection gs => gs
  | _ => []

/-- The geometry backend operations the difference loop calls
(`.is_empty`, `.buffer(tol)`, `.difference(..)`). -/
structure GeoOps (G : Type) where
  isEmpty : G → Bool
  buffer : G → ℚ → G
  diff : G → G → G

/-- The fixed buffer radius of line 153: `hist_line.buffer(0.0015)`. -/
def tolerance : ℚ := 0.0015

/-- The per-candidate difference loop, lines 148-155: starting from the
candidate, subtract the `tolerance`-buffer of each historical line in turn,
breaking out as soon as the remainder is empty. -/
def remainingLoop {G : Type} (ops : GeoOps G) (tol : ℚ) : G → List G → G
  | rem, [] => rem
  | rem, h :: rest =>
    if ops.isEmpty rem then rem
    else remainingLoop ops tol (ops.diff rem (ops.buffer h tol)) rest

/-- Modelled from the spec: the same computation stated as a left-fold over
the historical collection, the short-circuit being the fold step that keeps
an empty remainder unchanged (spec sections 4.3 and 9). -/
def remainingFold {G : Type} (ops : GeoOps G) (tol : ℚ) (cand : G) (hist : List G) : G :=
  hist.foldl (fun rem h => if ops.isEmpty rem then rem else ops.diff rem (ops.buffer h tol)) cand

/-- Lines 157-164: the per-candidate result dispatch.  An empty remainder is
dropped; a LineString or MultiLineString remainder is kept whole; of a
GeometryCollection only the line-like parts are kept. -/
def collectOne {G T : Type} (ops : GeoOps G) (gType : G → GeomType) (parts : G → List G)
    (tol : ℚ) (hist : List G) (tg : T × G) : List (G × T) :=
  let rem := remainingLoop ops tol tg.2 hist
  if ops.isEmpty rem then []
  else if lineLike (gType rem) then [(rem, tg.1)]
  else if gType rem = GeomType.geometryCollection then
    (parts rem).filterMap (fun p => if lineLike (gType p) then some (p, tg.1) else none)
  else []

/-- Lines 136-165: the batch over the new trips.  The `if not geo_history`
branch (lines 138-142) passes every candidate through unchanged; otherwise
each candidate goes through the difference loop and the dispatch. -/
def newSegments {G T : Type} (ops : GeoOps G) (gType : G → GeomType) (parts : G → List G)
    (tol : ℚ) (hist : List G) (cands : List (T × G)) : List (G × T) :=
  if hist.isEmpty then cands.map (fun tg => (tg.2, tg.1))
  else cands.flatMap (collectOne ops gType parts tol hist)

/-- The geometry backend with the failure behaviour of the shapely calls made
explicit: `buffer` and `difference` may raise on malformed geometry. -/
structure GeoOpsE (G : Type) where
  isEmpty : G → Bool
  buffer : G → ℚ → Except String G
  diff : G → G → Except String G

/-- A backend that never fails, viewed as a fallible one. -/
def liftOps {G : Type} (ops : GeoOps G) : GeoOpsE G where
  isEmpty := ops.isEmpty
  buffer h t := Except.ok (ops.buffer h t)
  diff a b := Except.ok (ops.diff a b)

/-- The difference loop of lines 148-155 over the fallible backend: the
script has no `try`/`except` here, so a raising call propagates. -/
def remainingLoopE {G : Type} (ops : GeoOpsE G) (tol : ℚ) : G → List G → Except String G
  | rem, [] => Except.ok rem
  | rem, h :: rest =>
    if ops.isEmpty rem then Except.ok rem
    else
      match ops.buffer h tol with
      | Except.error e => Except.error e
      | Except.ok buf =>
        match ops.diff rem buf with
        | Except.error e => Except.error e
        | Except.ok rem2 => remainingLoopE ops tol rem2 rest

/-- Lines 157-164 over the fallible backend (the dispatch itself cannot
raise; only the loop above can). -/
def collectOneE {G T : Type} (ops : GeoOpsE G) (gType : G → GeomType) (parts : G → List G)
    (tol : ℚ) (hist : List G) (tg : T × G) : Except String (List (G × T)) :=
  match remainingLoopE ops tol tg.2 hist with
  | Except.error e => Except.error e
  | Except.ok rem =>
    Except.ok
      (if ops.isEmpty rem then []
       else if lineLike (gType rem) then [(rem, tg.1)]
       else if gType rem = GeomType.geometryCollection then
         (parts rem).filterMap (fun p => if lineLike (gType p) then some (p, tg.1) else none)
       else [])

/-- The candidate loop of lines 145-164 with exception propagation: a failure
while processing one candidate aborts the whole loop, exactly as an uncaught
Python exception would. -/
def candLoopE {G T : Type} (ops : GeoOpsE G) (gType : G → GeomType) (parts : G → List G)
    (tol : ℚ) (hist : List G) : List (T × G) → Except String (List (G × T))
  | [] => Except.ok []
  | tg :: rest =>
    match collectOneE ops gType parts tol hist tg with
    | Except.error e => Except.error e
    | Except.ok segs =>
      match candLoopE ops gType parts tol hist rest with
      | Except.error e => Except.error e
      | Except.ok more => Except.ok (segs ++ more)

/-- Lines 136-165 over the fallible backend. -/
def newSegmentsE {G T : Type} (ops : GeoOpsE G) (gType : G → GeomType) (parts : G → List G)
    (tol : ℚ) (hist : List G) (cands : List (T × G)) : Except String (List (G × T)) :=
  if hist.isEmpty then Except.ok (cands.map (fun tg => (tg.2, tg.1)))
  else candLoopE ops gType parts tol hist cands

/-- A tiny concrete fallible backend: geometries are numbers, subtraction is
truncated subtraction, and `difference` raises on the designated malformed
remainder `5` (the way a GEOS call raises on invalid geometry). -/
def toyOps : GeoOpsE ℕ where
  isEmpty n := decide (n = 0)
  buffer h _ := Except.ok h
  diff a b := if a = 5 then Except.error "TopologyException" else Except.ok (a - b)

/-- The semantic buffer of spec section 4.3: the planar region within
`tol` (Euclidean) distance of the geometry. -/
def bufferSet (h : Set (ℝ × ℝ)) (tol : ℚ) : Set (ℝ × ℝ) :=
  {p | ∃ q ∈ h, Real.sqrt ((p.1 - q.1) ^ 2 + (p.2 - q.2) ^ 2) ≤ (tol : ℝ)}

/-- The set-semantics backend: geometries are planar point sets, `difference`
is set difference, `buffer` the metric neighbourhood, `is_empty` emptiness. -/
noncomputable def setOps : GeoOps (Set (ℝ × ℝ)) where
  isEmpty s := @decide (s = ∅) (Classical.propDecidable _)
  buffer := bufferSet
  diff s t := s \ t

/-- The union of the buffers of a list of historical lines. -/
def histUnion (hist : List (Set (ℝ × ℝ))) (tol : ℚ) : Set (ℝ × ℝ) :=
  {p | ∃ h ∈ hist, p ∈ bufferSet h tol}

/-- Lines 157-164 restricted to the geometry: the non-empty check, then the
type dispatch keeping a line-like result whole and, of a GeometryCollection,
only its line-like parts. -/
def collectGeoms (g : Geom) : List Geom :=
  if g.isEmptyG then []
  else if lineLike g.geomTypeOf then [g]
  else if g.geomTypeOf = GeomType.geometryCollection then
    g.partsOf.filter (fun p => lineLike p.geomTypeOf)
  else []

/-- Lines 172-177: a LineString is kept as such, a MultiLineString is split
into its constituent LineStrings (in native order); anything else yields
nothing. -/
def flattenLines : Geom → List Geom
  | Geom.lineString cs => [Geom.lineString cs]
  | Geom.multiLineString ls => ls.map Geom.lineString
  | _ => []

/-- The composite geometry flattener of lines 157-177: collect, then split
multi-lines. -/
def flattenGeom (g : Geom) : List Geom :=
  (collectGeoms g).flatMap flattenLines

/-- Modelled from the spec (section 4.4): of a mixed collection's
constituents, keep a Line as itself and a multi-line as its constituent
Lines, discarding every other geometry kind. -/
def linesOf : Geom → List Geom
  | Geom.lineString cs => [Geom.lineString cs]
  | Geom.multiLineString ls => ls.map Geom.lineString
  | _ => []

/-- The `polyline` package's precision factor for `precision=5`:
`10 ** 5`. -/
def factor : ℚ := 100000

/-- Python's `_py2_round`: round half away from zero
(`copysign(floor(fabs(value) + 0.5), value)`). -/
def pyRound (x : ℚ) : ℤ :=
  if 0 ≤ x then ⌊x + 1 / 2⌋ else -⌊-x + 1 / 2⌋

/-- The sign fold-in of `_write`: `coord <<= 1; coord = coord if coord >= 0
else ~coord` (Python `~n` is `-n - 1`).  The result is nonnegative. -/
def zigzag (d : ℤ) : ℕ :=
  if 0 ≤ 2 * d then (2 * d).toNat else (-(2 * d) - 1).toNat

/-- The chunk-emission loop of `_write`: emit 5-bit chunks little-endian,
each continuation chunk tagged with `0x20`, every byte offset by 63
(`while coord >= 0x20: write((0x20 | (coord & 0x1f)) + 63); coord >>= 5`,
then `write(coord + 63)`). -/
def chunkBytes (v : ℕ) : List ℕ :=
  if v < 32 then [v + 63]
  else ((32 ||| v % 32) + 63) :: chunkBytes (v / 32)
  decreasing_by exact Nat.div_lt_self (by omega) (by omega)

/-- The accumulation loop of the package's `_trans`: read bytes, subtract
63, accumulate the low 5 bits shifted into place, and continue while the
byte has the `0x20` continuation flag.  Running off the end of the input is
Python's `IndexError`, modelled as `none`. -/
def transAux : List ℕ → ℕ → ℕ → Option (ℕ × List ℕ)
  | [], _, _ => none
  | b :: rest, shift, result =>
    if 32 ≤ (b : ℤ) - 63 then
      transAux rest (shift + 5) (result ||| ((((b : ℤ) - 63) % 32).toNat <<< shift))
    else some (result ||| ((((b : ℤ) - 63) % 32).toNat <<< shift), rest)

/-- The sign fold-out of `_trans`:
`~(result >> 1) if result & 1 else result >> 1`. -/
def unzig (r : ℕ) : ℤ :=
  if r &&& 1 = 1 then -((r >>> 1 : ℕ) : ℤ) - 1 else ((r >>> 1 : ℕ) : ℤ)

/-- One full `_trans` call: chunk accumulation then sign fold-out. -/
def transDec (bs : List ℕ) : Option (ℤ × List ℕ) :=
  match transAux bs 0 0 with
  | none => none
  | some (r, rest) => some (unzig r, rest)

/-- The `decode` while-loop: as long as bytes remain, read a latitude delta
and a longitude delta, accumulate, and emit `(lat / factor, lng / factor)`.
The fuel argument only bounds the recursion; every iteration consumes at
least two bytes, so fuel `bs.length` is never exhausted. -/
def decodeLoop : ℕ → List ℕ → ℤ → ℤ → Option (List (ℚ × ℚ))
  | _, [], _, _ => some []
  | 0, _ :: _, _, _ => none
  | fuel + 1, b :: bs, lat, lng =>
    match transDec (b :: bs) with
    | none => none
    | some (dlat, r1) =>
      match transDec r1 with
      | none => none
      | some (dlng, r2) =>
        match decodeLoop fuel r2 (lat + dlat) (lng + dlng) with
        | none => none
        | some tail =>
          some ((((lat + dlat : ℤ) : ℚ) / factor, ((lng + dlng : ℤ) : ℚ) / factor) :: tail)

/-- `polyline.decode` on a byte string (strings are modelled as their
character-code sequences). -/
def polyDecode (bs : List ℕ) : Option (List (ℚ × ℚ)) :=
  decodeLoop bs.length bs 0 0

/-- `_write`: scale the current and previous coordinate by `factor`, round
each, and emit the chunked zigzag of their difference. -/
def writeVal (curr prev : ℚ) : List ℕ :=
  chunkBytes (zigzag (pyRound (curr * factor) - pyRound (prev * factor)))

/-- The `encode` loop: each point contributes its two coordinate deltas
against the previous point (initially `(0, 0)`). -/
def encodeAux : ℚ × ℚ → List (ℚ × ℚ) → List ℕ
  | _, [] => []
  | prev, curr :: rest => writeVal curr.1 prev.1 ++ writeVal curr.2 prev.2 ++ encodeAux curr rest

/-- `polyline.encode` on a list of `(lat, lon)` pairs. -/
def polyEncode (coords : List (ℚ × ℚ)) : List ℕ :=
  encodeAux (0, 0) coords

/-- Lines 188-193: `encode_linestring_to_polyline` returns `None` on a
non-LineString and otherwise reorders each `(lon, lat)` coordinate to
`(lat, lon)` and compact-encodes. -/
def encode_linestring_to_polyline (g : Geom) : Option (List ℕ) :=
  match g with
  | Geom.lineString cs => some (polyEncode (cs.map (fun lonlat => (lonlat.2, lonlat.1))))
  | _ => none

/-- JSON values as `json.loads` can produce them (the shapes relevant to
the script: numbers, strings, nested arrays, and the rest collapsed). -/
inductive JVal : Type
  | num (q : ℚ)
  | str (s : String)
  | arr (xs : List JVal)
  | other

/-- A cell of the `path` column: a Python `str` (modelled as its character
sequence), or a non-string value (`NaN` etc.), which
`isinstance(path_str, str)` rejects. -/
inductive PathCell : Type
  | str (s : List Char)
  | nonStr

/-- Python's `str.strip()`: drop whitespace from both ends. -/
def pyStrip (s : List Char) : List Char :=
  ((s.dropWhile Char.isWhitespace).reverse.dropWhile Char.isWhitespace).reverse

/-- Python's `.strip().startswith('[')` test of line 104. -/
def startsBracket (s : List Char) : Bool :=
  match pyStrip s with
  | c :: _ => c == '['
  | [] => false

/-- shapely's reading of one coordinate entry: a two-element array of
numbers; anything else makes the `LineString` constructor raise. -/
def coordOfJson : JVal → Option (ℚ × ℚ)
  | JVal.arr [JVal.num x, JVal.num y] => some (x, y)
  | _ => none

/-- The `LineString(coords)` constructor call of line 113: succeeds on a
sequence of coordinate pairs, raises otherwise. -/
def mkLineString (coords : List JVal) : Except String (List (ℚ × ℚ)) :=
  match coords.mapM coordOfJson with
  | some cs => Except.ok cs
  | none => Except.error "LineString: invalid coordinate sequence"

/-- Lines 89-113, `parse_path_and_to_geometry`, with the two external
decoders passed in: `polyDec` is `polyline.decode` (its exceptions are the
`Except.error` case; the broad `except Exception` of line 102 catches them
all), and `jsonDec` is `json.loads` restricted to documents that parse as
arrays (its `JSONDecodeError` is the `Except.error` case, caught at line
107).  A raising `LineString` constructor propagates to the caller. -/
def parse_path_and_to_geometry (polyDec : List Char → Except Unit (List (ℚ × ℚ)))
    (jsonDec : List Char → Except Unit (List JVal)) : PathCell → Except String (Option Geom)
  | PathCell.nonStr => Except.ok none
  | PathCell.str s =>
    if s.length < 2 then Except.ok none
    else
      let coords : List JVal :=
        match polyDec s with
        | Except.ok latlon => latlon.map (fun p => JVal.arr [JVal.num p.2, JVal.num p.1])
        | Except.error _ =>
          if startsBracket s then
            match jsonDec s with
            | Except.ok xs => xs
            | Except.error _ => []
          else []
      if coords.length < 2 then Except.ok none
      else
        match mkLineString coords with
        | Except.ok cs => Except.ok (some (Geom.lineString cs))
        | Except.error e => Except.error e

/-- A cell value of a trip row: an encoded path string (as its byte
sequence), an opaque metadata value, or pandas' NaN filler. -/
inductive CellVal : Type
  | bytes (bs : List ℕ)
  | meta (n : ℕ)
  | nan
deriving DecidableEq

/-- A trip row as `Series.to_dict()` produces it: field names in column
order with their values. -/
abbrev TripRow := List (String × CellVal)

/-- Python dict lookup on the row. -/
def getVal : TripRow → String → Option CellVal
  | [], _ => none
  | (k2, v) :: rest, k => if k2 = k then some v else getVal rest k

/-- Python dict assignment `d[k] = v`: overwrite in place, or append a new
key at the end. -/
def setKey : TripRow → String → CellVal → TripRow
  | [], k, v => [(k, v)]
  | (k2, v2) :: rest, k, v =>
    if k2 = k then (k, v) :: rest else (k2, v2) :: setKey rest k v

/-- Lines 202-209, the export loop: encode each fragment; `if encoded_path:`
keeps a row only for a truthy result (`None` and the empty string are both
falsy), copying the trip's dict and overwriting its `path`. -/
def exportRows (items : List (Geom × TripRow)) : List TripRow :=
  items.filterMap (fun gt =>
    match encode_linestring_to_polyline gt.1 with
    | none => none
    | some bs =>
      if bs.isEmpty then none else some (setKey gt.2 "path" (CellVal.bytes bs)))

/-- One step of pandas' column-union: append a key if unseen. -/
def addCol (acc : List String) (k : String) : List String :=
  if acc.contains k then acc else acc ++ [k]

/-- `pd.DataFrame(rows)` column inference: the union of the row dicts'
keys, in first-seen order.  An empty row list yields no columns. -/
def frameCols (rows : List TripRow) : List String :=
  rows.foldl (fun acc r => (r.map Prod.fst).foldl addCol acc) []

/-- Line 212, `df[original_columns]`: selecting a column absent from the
frame raises `KeyError`; otherwise every row is re-ordered to exactly the
requested columns (missing cells becoming NaN). -/
def selectCols (rows : List TripRow) (cols : List String) : Except String (List TripRow) :=
  if cols.all (fun c => (frameCols rows).contains c) then
    Except.ok (rows.map (fun r => cols.map (fun c => (c, (getVal r c).getD CellVal.nan))))
  else Except.error "KeyError"

/-- Lines 202-212 end to end: build the output rows, then select the input
file's original columns. -/
def exportFrame (items : List (Geom × TripRow)) (cols : List String) :
    Except String (List TripRow) :=
  selectCols (exportRows items) cols

section Lemmas

theorem setOps_isEmpty_iff (s : Set (ℝ × ℝ)) : setOps.isEmpty s = true ↔ s = ∅ := by
  simp [setOps, decide_eq_true_eq]

theorem remainingFold_of_isEmpty {G : Type} (ops : GeoOps G) (tol : ℚ) (rem : G)
    (hist : List G) (h : ops.isEmpty rem = true) : remainingFold ops tol rem hist = rem := by
  induction hist with
  | nil => rfl
  | cons a l ih =>
    simp only [remainingFold, List.foldl_cons, h, if_true] at *
    exact ih

theorem remainingLoop_eq_fold {G : Type} (ops : GeoOps G) (tol : ℚ) :
    ∀ (hist : List G) (cand : G),
      remainingLoop ops tol cand hist = remainingFold ops tol cand hist := by
  intro hist
  induction hist with
  | nil => intro cand; rfl
  | cons h l ih =>
    intro cand
    by_cases hc : ops.isEmpty cand
    · simp only [remainingLoop, hc, if_true]
      rw [remainingFold_of_isEmpty ops tol cand (h :: l) hc]
    · simp only [remainingLoop, hc, if_false, Bool.false_eq_true]
      rw [ih, remainingFold, remainingFold, List.foldl_cons]
      simp [hc]

theorem histUnion_cons (h : Set (ℝ × ℝ)) (rest : List (Set (ℝ × ℝ))) (tol : ℚ) :
    histUnion (h :: rest) tol = bufferSet h tol ∪ histUnion rest tol := by
  ext p
  simp only [histUnion, Set.mem_setOf_eq, List.mem_cons, Set.mem_union]
  constructor
  · rintro ⟨g, hg | hg, hp⟩
    · exact Or.inl (hg ▸ hp)
    · exact Or.inr ⟨g, hg, hp⟩
  · rintro (hp | ⟨g, hg, hp⟩)
    · exact ⟨h, Or.inl rfl, hp⟩
    · exact ⟨g, Or.inr hg, hp⟩

theorem remainingLoop_setOps (tol : ℚ) :
    ∀ (hist : List (Set (ℝ × ℝ))) (cand : Set (ℝ × ℝ)),
      remainingLoop setOps tol cand hist = cand \ histUnion hist tol := by
  intro hist
  induction hist with
  | nil =>
    intro cand
    have : histUnion [] tol = ∅ := by
      ext p; simp [histUnion]
    simp [remainingLoop, this]
  | cons h rest ih =>
    intro cand
    by_cases hc : setOps.isEmpty cand
    · have hce : cand = ∅ := (setOps_isEmpty_iff cand).mp hc
      subst hce
      simp [remainingLoop, hc]
    · simp only [remainingLoop, hc, if_false, Bool.false_eq_true]
      rw [ih]
      show (setOps.diff cand (setOps.buffer h tol)) \ histUnion rest tol = _
      show (cand \ bufferSet h tol) \ histUnion rest tol = _
      rw [Set.diff_diff, histUnion_cons]

end Lemmas

/-- Claim C1: the difference engine computes its result as a left-fold with
short-circuit: the remainder starts as the candidate and, for each
historical line in iteration order, stops if empty, otherwise subtracts the
line's buffer of radius `tolerance` (0.0015); the final remainder is the
returned geometry. -/
theorem difference_engine_is_left_fold {G : Type} (ops : GeoOps G) (cand : G) (hist : List G) :
    remainingLoop ops tolerance cand hist = remainingFold ops tolerance cand hist :=
  remainingLoop_eq_fold ops tolerance hist cand

/-- Claim C2: with an empty historical collection every candidate is
returned unchanged, through the dedicated `if not geo_history` branch. -/
theorem empty_history_returns_candidates {G T : Type} (ops : GeoOps G)
    (gType : G → GeomType) (parts : G → List G) (cands : List (T × G)) :
    newSegments ops gType parts tolerance [] cands = cands.map (fun tg => (tg.2, tg.1)) := rfl

/-- Claim C3 (refuting the claimed behaviour): a geometric failure while
processing one candidate aborts the whole batch.  With the toy backend the
first candidate's subtraction raises, the batch returns that error and the
second candidate — which on its own yields a fragment — is never processed. -/
theorem geometric_error_aborts_batch :
    newSegmentsE toyOps (fun _ => GeomType.lineString) (fun _ => []) tolerance
        [3] [(0, 5), (1, 7)] = Except.error "TopologyException"
    ∧ newSegmentsE toyOps (fun _ => GeomType.lineString) (fun _ => []) tolerance
        [3] [(1, 7)] = Except.ok [(4, 1)] :=
  ⟨rfl, rfl⟩

/-- Claim C7: the final remainder does not depend on the iteration order of
the historical collection. -/
theorem difference_order_independent (cand : Set (ℝ × ℝ)) (tol : ℚ)
    (hist hist2 : List (Set (ℝ × ℝ))) (hperm : hist.Perm hist2) :
    remainingLoop setOps tol cand hist = remainingLoop setOps tol cand hist2 := by
  rw [remainingLoop_setOps, remainingLoop_setOps]
  have : histUnion hist tol = histUnion hist2 tol := by
    ext p
    simp only [histUnion, Set.mem_setOf_eq]
    exact exists_congr (fun h => and_congr_left (fun _ => hperm.mem_iff))
  rw [this]

/-- Witness for C7 at concrete sets. -/
theorem difference_order_independent_witness :
    remainingLoop setOps 1 ({((0 : ℝ), (0 : ℝ))} : Set (ℝ × ℝ))
        [({((1 : ℝ), (1 : ℝ))} : Set (ℝ × ℝ)), ({((2 : ℝ), (2 : ℝ))} : Set (ℝ × ℝ))] =
      remainingLoop setOps 1 ({((0 : ℝ), (0 : ℝ))} : Set (ℝ × ℝ))
        [({((2 : ℝ), (2 : ℝ))} : Set (ℝ × ℝ)), ({((1 : ℝ), (1 : ℝ))} : Set (ℝ × ℝ))] :=
  difference_order_independent _ _ _ _ (List.Perm.swap _ _ _)

/-- Claim C8: when the history is exactly one line geometrically identical
to the candidate and the tolerance is nonnegative, the result is empty. -/
theorem identical_history_line_empties_candidate (cand : Set (ℝ × ℝ)) (tol : ℚ)
    (ht : 0 ≤ tol) : remainingLoop setOps tol cand [cand] = ∅ := by
  rw [remainingLoop_setOps]
  rw [Set.diff_eq_empty]
  intro p hp
  refine ⟨cand, List.mem_cons_self _ _, ⟨p, hp, ?_⟩⟩
  simp only [sub_self]
  rw [show ((0 : ℝ) ^ 2 + 0 ^ 2) = 0 by norm_num, Real.sqrt_zero]
  exact_mod_cast ht

/-- Witness for C8 at a concrete candidate and tolerance. -/
theorem identical_history_line_empties_candidate_witness :
    remainingLoop setOps 1 ({((0 : ℝ), (0 : ℝ))} : Set (ℝ × ℝ))
        [({((0 : ℝ), (0 : ℝ))} : Set (ℝ × ℝ))] = ∅ :=
  identical_history_line_empties_candidate _ _ (by norm_num)

theorem filter_lineLike_flatMap (gs : List Geom) :
    (gs.filter (fun p => lineLike p.geomTypeOf)).flatMap flattenLines = gs.flatMap linesOf := by
  induction gs with
  | nil => rfl
  | cons g rest ih =>
    rw [List.flatMap_cons, ← ih, List.filter_cons]
    cases g with
    | lineString cs =>
      rw [if_pos (show lineLike (Geom.lineString cs).geomTypeOf = true from rfl),
        List.flatMap_cons]
      simp [flattenLines, linesOf]
    | multiLineString ls =>
      rw [if_pos (show lineLike (Geom.multiLineString ls).geomTypeOf = true from rfl),
        List.flatMap_cons]
      simp [flattenLines, linesOf]
    | geometryCollection gsub =>
      rw [if_neg (by simp [lineLike, Geom.geomTypeOf])]
      exact (List.nil_append _).symm
    | point c =>
      rw [if_neg (by simp [lineLike, Geom.geomTypeOf])]
      exact (List.nil_append _).symm
    | polygon rs =>
      rw [if_neg (by simp [lineLike, Geom.geomTypeOf])]
      exact (List.nil_append _).symm

/-- Claim C5: flattening yields nothing on an empty geometry, exactly the
input on a simple Line, the constituent Lines in native order on a
multi-line collection, and on a mixed collection only the Line-typed and
multi-line-typed constituents (the latter split into their Lines), all
other kinds discarded.  (`flattenGeom` is a total function, so it cannot
raise.) -/
theorem flatten_contract :
    (∀ g : Geom, g.isEmptyG = true → flattenGeom g = [])
    ∧ (∀ cs : List (ℚ × ℚ), 2 ≤ cs.length →
        flattenGeom (Geom.lineString cs) = [Geom.lineString cs])
    ∧ (∀ ls : List (List (ℚ × ℚ)), ls ≠ [] →
        flattenGeom (Geom.multiLineString ls) = ls.map Geom.lineString)
    ∧ (∀ gs : List Geom, gs ≠ [] →
        flattenGeom (Geom.geometryCollection gs) = gs.flatMap linesOf) := by
  refine ⟨?_, ?_, ?_, ?_⟩
  · intro g hg
    simp [flattenGeom, collectGeoms, hg]
  · intro cs hcs
    match cs, hcs with
    | c :: rest, _ =>
      simp [flattenGeom, collectGeoms, Geom.isEmptyG, Geom.geomTypeOf, lineLike, flattenLines]
  · intro ls hls
    obtain ⟨a, as, h⟩ := List.exists_cons_of_ne_nil hls
    subst h
    simp [flattenGeom, collectGeoms, Geom.isEmptyG, Geom.geomTypeOf, lineLike, flattenLines]
  · intro gs hgs
    obtain ⟨a, as, h⟩ := List.exists_cons_of_ne_nil hgs
    subst h
    have hemp : (Geom.geometryCollection (a :: as)).isEmptyG = false := by
      simp [Geom.isEmptyG]
    simp only [flattenGeom, collectGeoms, hemp, Geom.geomTypeOf, lineLike, Geom.partsOf,
      Bool.false_eq_true, if_false, if_true, reduceIte]
    exact filter_lineLike_flatMap (a :: as)

/-- Witness for C5 at concrete geometries. -/
theorem flatten_contract_witness :
    flattenGeom (Geom.lineString []) = []
    ∧ flattenGeom (Geom.lineString [(0, 0), (1, 1)]) = [Geom.lineString [(0, 0), (1, 1)]]
    ∧ flattenGeom (Geom.multiLineString [[(0, 0), (1, 1)]]) =
        [Geom.lineString [(0, 0), (1, 1)]]
    ∧ flattenGeom (Geom.geometryCollection [Geom.point (0, 0), Geom.lineString [(0, 0), (1, 1)]]) =
        [Geom.lineString [(0, 0), (1, 1)]] :=
  ⟨flatten_contract.1 _ rfl,
   flatten_contract.2.1 [(0, 0), (1, 1)] (by simp),
   flatten_contract.2.2.1 [[(0, 0), (1, 1)]] (List.cons_ne_nil _ _),
   flatten_contract.2.2.2 [Geom.point (0, 0), Geom.lineString [(0, 0), (1, 1)]]
     (List.cons_ne_nil _ _)⟩

theorem lor_low_shift (a b s : ℕ) (h : a < 2 ^ s) : a ||| (b <<< s) = a + b * 2 ^ s := by
  rw [Nat.shiftLeft_eq, Nat.lor_comm, mul_comm b (2 ^ s), ← Nat.mul_add_lt_is_or h b]
  ring

theorem transAux_chunkBytes :
    ∀ (v : ℕ) (rest : List ℕ) (shift result : ℕ), result < 2 ^ shift →
      transAux (chunkBytes v ++ rest) shift result = some (result + v * 2 ^ shift, rest) := by
  intro v
  induction v using Nat.strong_induction_on with
  | _ v ih =>
    intro rest shift result hlt
    rw [chunkBytes]
    by_cases h32 : v < 32
    · rw [if_pos h32]
      simp only [List.cons_append, List.nil_append, transAux]
      have hb : (((v + 63 : ℕ) : ℤ) - 63) = (v : ℤ) := by push_cast; ring
      rw [hb, if_neg (by omega)]
      have hc : (((v : ℤ)) % 32).toNat = v := by omega
      rw [hc, lor_low_shift _ _ _ hlt]
      rfl
    · rw [if_neg h32]
      have h5 : (32 ||| v % 32) = v % 32 + 32 := by
        rw [Nat.lor_comm]
        have h6 := lor_low_shift (v % 32) 1 5 (by omega)
        simpa using h6
      rw [h5]
      simp only [List.cons_append, transAux]
      rw [if_pos (show (32 : ℤ) ≤ ((v % 32 + 32 + 63 : ℕ) : ℤ) - 63 by push_cast; omega)]
      have hc : ((((v % 32 + 32 + 63 : ℕ) : ℤ) - 63) % 32).toNat = v % 32 := by omega
      rw [hc, lor_low_shift _ _ _ hlt]
      have hres : result + v % 32 * 2 ^ shift < 2 ^ (shift + 5) := by
        have hp : (2 : ℕ) ^ (shift + 5) = 2 ^ shift * 32 := by rw [pow_add]; norm_num
        have h31 : v % 32 * 2 ^ shift ≤ 31 * 2 ^ shift :=
          Nat.mul_le_mul_right _ (by omega)
        nlinarith [hlt, h31]
      show transAux (chunkBytes (v / 32) ++ rest) (shift + 5)
          (result + v % 32 * 2 ^ shift) = some (result + v * 2 ^ shift, rest)
      rw [ih (v / 32) (Nat.div_lt_self (by omega) (by omega)) rest (shift + 5) _ hres]
      have hfin : result + v % 32 * 2 ^ shift + v / 32 * 2 ^ (shift + 5) =
          result + v * 2 ^ shift := by
        have hv : 32 * (v / 32) + v % 32 = v := Nat.div_add_mod v 32
        calc result + v % 32 * 2 ^ shift + v / 32 * 2 ^ (shift + 5)
            = result + (32 * (v / 32) + v % 32) * 2 ^ shift := by rw [pow_add]; ring
          _ = result + v * 2 ^ shift := by rw [hv]
      rw [hfin]

theorem unzig_zigzag (d : ℤ) : unzig (zigzag d) = d := by
  unfold zigzag
  by_cases hd : 0 ≤ 2 * d
  · rw [if_pos hd]
    unfold unzig
    rw [Nat.and_one_is_mod, Nat.shiftRight_eq_div_pow, pow_one]
    split <;> omega
  · rw [if_neg hd]
    unfold unzig
    rw [Nat.and_one_is_mod, Nat.shiftRight_eq_div_pow, pow_one]
    split <;> omega

theorem transDec_chunk (d : ℤ) (rest : List ℕ) :
    transDec (chunkBytes (zigzag d) ++ rest) = some (d, rest) := by
  unfold transDec
  rw [transAux_chunkBytes (zigzag d) rest 0 0 (by norm_num)]
  simp [unzig_zigzag]

theorem chunkBytes_ne_nil (v : ℕ) : chunkBytes v ≠ [] := by
  rw [chunkBytes]
  split <;> simp

theorem decodeLoop_encodeAux :
    ∀ (pts : List (ℚ × ℚ)) (prev : ℚ × ℚ) (fuel : ℕ),
      (encodeAux prev pts).length ≤ fuel →
      decodeLoop fuel (encodeAux prev pts)
          (pyRound (prev.1 * factor)) (pyRound (prev.2 * factor)) =
        some (pts.map (fun p => ((pyRound (p.1 * factor) : ℚ) / factor,
          (pyRound (p.2 * factor) : ℚ) / factor))) := by
  intro pts
  induction pts with
  | nil =>
    intro prev fuel hf
    simp [encodeAux, decodeLoop]
  | cons p rest ih =>
    intro prev fuel hf
    have hw : encodeAux prev (p :: rest) =
        chunkBytes (zigzag (pyRound (p.1 * factor) - pyRound (prev.1 * factor))) ++
          (chunkBytes (zigzag (pyRound (p.2 * factor) - pyRound (prev.2 * factor))) ++
            encodeAux p rest) := by
      rw [encodeAux]
      simp only [writeVal]
      rw [List.append_assoc]
    rw [hw] at hf ⊢
    have hlen1 : 0 <
        (chunkBytes (zigzag (pyRound (p.1 * factor) - pyRound (prev.1 * factor)))).length :=
      List.length_pos.mpr (chunkBytes_ne_nil _)
    have hlen2 : 0 <
        (chunkBytes (zigzag (pyRound (p.2 * factor) - pyRound (prev.2 * factor)))).length :=
      List.length_pos.mpr (chunkBytes_ne_nil _)
    obtain ⟨c, cs, hc⟩ := List.exists_cons_of_ne_nil
      (chunkBytes_ne_nil (zigzag (pyRound (p.1 * factor) - pyRound (prev.1 * factor))))
    cases fuel with
    | zero =>
      exfalso
      simp only [List.length_append] at hf
      omega
    | succ f =>
      have ht1 : transDec (c :: (cs ++
          (chunkBytes (zigzag (pyRound (p.2 * factor) - pyRound (prev.2 * factor))) ++
            encodeAux p rest))) =
          some (pyRound (p.1 * factor) - pyRound (prev.1 * factor),
            chunkBytes (zigzag (pyRound (p.2 * factor) - pyRound (prev.2 * factor))) ++
              encodeAux p rest) := by
        rw [← List.cons_append, ← hc]
        exact transDec_chunk _ _
      have ht2 : transDec
          (chunkBytes (zigzag (pyRound (p.2 * factor) - pyRound (prev.2 * factor))) ++
            encodeAux p rest) =
          some (pyRound (p.2 * factor) - pyRound (prev.2 * factor), encodeAux p rest) :=
        transDec_chunk _ _
      have hfl : (encodeAux p rest).length ≤ f := by
        simp only [List.length_append] at hf
        omega
      rw [hc, List.cons_append]
      simp only [decodeLoop]
      rw [ht1]
      simp only [ht2]
      have hlat : pyRound (prev.1 * factor) +
          (pyRound (p.1 * factor) - pyRound (prev.1 * factor)) = pyRound (p.1 * factor) := by
        ring
      have hlng : pyRound (prev.2 * factor) +
          (pyRound (p.2 * factor) - pyRound (prev.2 * factor)) = pyRound (p.2 * factor) := by
        ring
      rw [hlat, hlng, ih p f hfl]
      simp

theorem abs_pyRound_sub_le (y : ℚ) : |(pyRound y : ℚ) - y| ≤ 1 / 2 := by
  unfold pyRound
  by_cases hy : 0 ≤ y
  · rw [if_pos hy]
    have h1 : (⌊y + 1 / 2⌋ : ℚ) ≤ y + 1 / 2 := Int.floor_le _
    have h2 : y + 1 / 2 < ⌊y + 1 / 2⌋ + 1 := Int.lt_floor_add_one _
    rw [abs_le]
    constructor <;> linarith
  · rw [if_neg hy]
    have h1 : (⌊-y + 1 / 2⌋ : ℚ) ≤ -y + 1 / 2 := Int.floor_le _
    have h2 : -y + 1 / 2 < ⌊-y + 1 / 2⌋ + 1 := Int.lt_floor_add_one _
    rw [abs_le]
    push_cast
    constructor <;> linarith

theorem abs_roundCoord_sub_le (x : ℚ) :
    |(pyRound (x * factor) : ℚ) / factor - x| ≤ 1 / 100000 := by
  have h := abs_pyRound_sub_le (x * factor)
  have hf : factor = (100000 : ℚ) := rfl
  rw [abs_le] at h ⊢
  rw [hf] at h ⊢
  obtain ⟨h1, h2⟩ := h
  constructor <;> [linarith; linarith]

theorem polyDecode_polyEncode (pts : List (ℚ × ℚ)) :
    polyDecode (polyEncode pts) =
      some (pts.map (fun p => ((pyRound (p.1 * factor) : ℚ) / factor,
        (pyRound (p.2 * factor) : ℚ) / factor))) := by
  have h0 : pyRound ((0 : ℚ) * factor) = 0 := by
    unfold pyRound
    rw [if_pos (by norm_num)]
    norm_num
  unfold polyDecode polyEncode
  have h := decodeLoop_encodeAux pts (0, 0) (encodeAux (0, 0) pts).length le_rfl
  simp only [Prod.fst, Prod.snd, h0] at h
  exact h

/-- Claim C6: encoding a simple Line's `(lon, lat)` coordinate sequence
(internally reordered to `(lat, lon)`) with the compact polyline codec and
then decoding the result reproduces the original coordinate sequence, each
coordinate within the encoding's precision tolerance of `1e-5` degrees. -/
theorem polyline_roundtrip (cs : List (ℚ × ℚ)) :
    ∃ bs ds, encode_linestring_to_polyline (Geom.lineString cs) = some bs
      ∧ polyDecode bs = some ds
      ∧ List.Forall₂
          (fun d c : ℚ × ℚ => |d.1 - c.1| ≤ 1 / 100000 ∧ |d.2 - c.2| ≤ 1 / 100000)
          (ds.map (fun p => (p.2, p.1))) cs := by
  refine ⟨_, _, rfl, polyDecode_polyEncode _, ?_⟩
  rw [List.map_map, List.map_map]
  rw [List.forall₂_map_left_iff]
  rw [List.forall₂_same]
  intro c _
  exact ⟨abs_roundCoord_sub_le c.1, abs_roundCoord_sub_le c.2⟩

/-- Claim C4 (refuting the never-raises part): on the input `'["ab","cd"]'`
— on which `polyline.decode` raises (its chunk stream ends mid-value) and
`json.loads` returns a two-element array of strings — the length check
passes and the `LineString` constructor raises, so the decoder raises to
its caller instead of returning absent. -/
theorem decoder_raises_on_non_pair_json
    (polyDec : List Char → Except Unit (List (ℚ × ℚ)))
    (jsonDec : List Char → Except Unit (List JVal))
    (hp : polyDec ['[', '"', 'a', 'b', '"', ',', '"', 'c', 'd', '"', ']'] = Except.error ())
    (hj : jsonDec ['[', '"', 'a', 'b', '"', ',', '"', 'c', 'd', '"', ']'] =
      Except.ok [JVal.str "ab", JVal.str "cd"]) :
    parse_path_and_to_geometry polyDec jsonDec
        (PathCell.str ['[', '"', 'a', 'b', '"', ',', '"', 'c', 'd', '"', ']']) =
      Except.error "LineString: invalid coordinate sequence" := by
  simp only [parse_path_and_to_geometry, hp, hj]
  rfl

/-- Witness for C4: concrete decoder functions with that behaviour. -/
theorem decoder_raises_on_non_pair_json_witness :
    parse_path_and_to_geometry (fun _ => Except.error ())
        (fun _ => Except.ok [JVal.str "ab", JVal.str "cd"])
        (PathCell.str ['[', '"', 'a', 'b', '"', ',', '"', 'c', 'd', '"', ']']) =
      Except.error "LineString: invalid coordinate sequence" :=
  decoder_raises_on_non_pair_json _ _ rfl rfl

theorem getVal_setKey_same (t : TripRow) (k : String) (v : CellVal) :
    getVal (setKey t k v) k = some v := by
  induction t with
  | nil => simp [setKey, getVal]
  | cons kv rest ih =>
    obtain ⟨k2, v2⟩ := kv
    by_cases hk : k2 = k
    · subst hk
      simp [setKey, getVal]
    · simp [setKey, getVal, hk, ih]

theorem getVal_setKey_other (t : TripRow) (k q : String) (v : CellVal) (h : k ≠ q) :
    getVal (setKey t k v) q = getVal t q := by
  induction t with
  | nil => simp [setKey, getVal, h]
  | cons kv rest ih =>
    obtain ⟨k2, v2⟩ := kv
    by_cases hk : k2 = k
    · subst hk
      simp [setKey, getVal, h]
    · by_cases hq : k2 = q
      · subst hq
        simp [setKey, getVal, hk]
      · simp [setKey, getVal, hk, hq, ih]

theorem writeVal_zero : writeVal 0 0 = [63] := by
  unfold writeVal
  have h0 : pyRound ((0 : ℚ) * factor) = 0 := by
    unfold pyRound
    rw [if_pos (by norm_num)]
    norm_num
  rw [h0]
  show chunkBytes (zigzag 0) = [63]
  have hz : zigzag 0 = 0 := by unfold zigzag; norm_num
  rw [hz, chunkBytes]
  norm_num

theorem encode_zero_line :
    encode_linestring_to_polyline (Geom.lineString [(0, 0), (0, 0)]) =
      some [63, 63, 63, 63] := by
  simp [encode_linestring_to_polyline, polyEncode, encodeAux, writeVal_zero]

theorem exportRows_witness_eval :
    exportRows [(Geom.lineString [(0, 0), (0, 0)],
        [("type", CellVal.meta 0), ("path", CellVal.meta 1)])] =
      [[("type", CellVal.meta 0), ("path", CellVal.bytes [63, 63, 63, 63])]] := by
  simp only [exportRows, List.filterMap_cons, List.filterMap_nil, encode_zero_line,
    List.isEmpty_cons]
  rfl

theorem map_fst_cols (r2 : TripRow) (cols : List String) :
    (cols.map (fun c => (c, (getVal r2 c).getD CellVal.nan))).map Prod.fst = cols := by
  induction cols with
  | nil => rfl
  | cons c cs ihc =>
    simp only [List.map_cons]
    rw [ihc]

/-- Claim C9: a fragment that encodes to a truthy string produces exactly
one output row, the trip's dict with only `path` overwritten (all other
fields verbatim); a fragment whose encoding fails produces no row; and
every row of a successful column selection has exactly the input schema's
columns, in order. -/
theorem export_row_schema :
    (∀ (g : Geom) (t : TripRow) (bs : List ℕ) (rest : List (Geom × TripRow)),
        encode_linestring_to_polyline g = some bs → bs ≠ [] →
        exportRows ((g, t) :: rest) = setKey t "path" (CellVal.bytes bs) :: exportRows rest)
    ∧ (∀ (g : Geom) (t : TripRow) (rest : List (Geom × TripRow)),
        encode_linestring_to_polyline g = none →
        exportRows ((g, t) :: rest) = exportRows rest)
    ∧ (∀ (t : TripRow) (v : CellVal) (q : String), q ≠ "path" →
        getVal (setKey t "path" v) q = getVal t q)
    ∧ (∀ (t : TripRow) (v : CellVal), getVal (setKey t "path" v) "path" = some v)
    ∧ (∀ (items : List (Geom × TripRow)) (cols : List String) (out : List TripRow),
        selectCols (exportRows items) cols = Except.ok out →
        ∀ r ∈ out, r.map Prod.fst = cols) := by
  refine ⟨?_, ?_, ?_, ?_, ?_⟩
  · intro g t bs rest henc hne
    obtain ⟨b0, bs0, hb⟩ := List.exists_cons_of_ne_nil hne
    subst hb
    simp [exportRows, List.filterMap_cons, henc]
  · intro g t rest henc
    simp [exportRows, List.filterMap_cons, henc]
  · intro t v q hq
    exact getVal_setKey_other t "path" q v (Ne.symm hq)
  · intro t v
    exact getVal_setKey_same t "path" v
  · intro items cols out hsel r hr
    unfold selectCols at hsel
    by_cases hall : cols.all (fun c => (frameCols (exportRows items)).contains c)
    · rw [if_pos hall] at hsel
      injection hsel with hout
      subst hout
      obtain ⟨r2, hr2, hreq⟩ := List.mem_map.mp hr
      rw [← hreq]
      exact map_fst_cols r2 cols
    · rw [if_neg hall] at hsel
      cases hsel

/-- Witness for C9 at a concrete trip and fragment. -/
theorem export_row_schema_witness :
    exportRows [(Geom.lineString [(0, 0), (0, 0)],
        [("type", CellVal.meta 0), ("path", CellVal.meta 1)])] =
      [setKey [("type", CellVal.meta 0), ("path", CellVal.meta 1)] "path"
        (CellVal.bytes [63, 63, 63, 63])]
    ∧ exportRows [(Geom.point (0, 0), [("path", CellVal.meta 1)])] = []
    ∧ getVal (setKey [("type", CellVal.meta 0), ("path", CellVal.meta 1)] "path"
        (CellVal.bytes [63, 63, 63, 63])) "type" = some (CellVal.meta 0)
    ∧ getVal (setKey [("path", CellVal.meta 1)] "path" (CellVal.bytes [63, 63, 63, 63]))
        "path" = some (CellVal.bytes [63, 63, 63, 63])
    ∧ [("type", CellVal.meta 0), ("path", CellVal.bytes [63, 63, 63, 63])].map Prod.fst =
        ["type", "path"] := by
  refine ⟨export_row_schema.1 _ _ _ [] encode_zero_line (by decide),
    export_row_schema.2.1 _ _ [] rfl,
    export_row_schema.2.2.1 _ _ "type" (by decide),
    export_row_schema.2.2.2.1 _ _,
    export_row_schema.2.2.2.2 [(Geom.lineString [(0, 0), (0, 0)],
        [("type", CellVal.meta 0), ("path", CellVal.meta 1)])] ["type", "path"]
      [[("type", CellVal.meta 0), ("path", CellVal.bytes [63, 63, 63, 63])]] ?_ _ (by simp)⟩
  rw [exportRows_witness_eval]
  rfl

/-- Claim C10: when the pipeline produces no output rows, the export step
raises (pandas `KeyError` from selecting the original columns on a frame
with no columns) rather than writing an empty file with the input schema. -/
theorem empty_result_select_raises (items : List (Geom × TripRow)) (cols : List String)
    (h1 : exportRows items = []) (h2 : cols ≠ []) :
    exportFrame items cols = Except.error "KeyError" := by
  unfold exportFrame
  rw [h1]
  obtain ⟨c, cs, hc⟩ := List.exists_cons_of_ne_nil h2
  subst hc
  rfl

/-- Witness for C10: one trip whose only fragment is dropped. -/
theorem empty_result_select_raises_witness :
    exportFrame [(Geom.point (0, 0), [("path", CellVal.meta 0)])] ["path"] =
      Except.error "KeyError" :=
  empty_result_select_raises _ _ rfl (List.cons_ne_nil _ _)

theorem remainingLoopE_liftOps {G : Type} (ops : GeoOps G) (tol : ℚ) :
    ∀ (hist : List G) (rem : G),
      remainingLoopE (liftOps ops) tol rem hist =
        Except.ok (remainingLoop ops tol rem hist) := by
  intro hist
  induction hist with
  | nil => intro rem; rfl
  | cons h rest ih =>
    intro rem
    by_cases hc : ops.isEmpty rem
    · simp [remainingLoopE, remainingLoop, liftOps, hc]
    · simp [remainingLoopE, remainingLoop, liftOps, hc, ih]
      exact ih _
